import Mathlib

/-!
Shallow embedding of the watgbridge synchronization engine.

The repository contains three concatenated variants of the bridge:
* `src/TelegramBridge.js` lines 1-2338 — the main `TelegramBridge` class
  (called "variant 1" below); this is the variant with the durable MongoDB
  store, authorization with a block list, rate limiting, and the
  probe-and-recreate topic lifecycle.
* `src/TelegramBridge.js` lines 2353-4574 — a second `TelegramBridge` class
  ("variant 2") whose `isAuthorized` consults only the allow set and whose
  message handler performs no gate checks of its own.
* `src/TelegramBridge.js` lines 4577-5388 — the `TelegramCommands` class.
* `src/telegram/bridge.js` — an in-memory variant with the FIFO message
  queue consumer (`startMessageQueueProcessor`) and a `getOrCreateTopic`
  that performs no existence probe.

JavaScript `Map`s are modelled as association lists (`List (κ × ν)`) where
`Map.set` is `alUpsert` (replace in place or append) and `Map.get` is
`alGet`; `Set`s are modelled as `List` with `contains`.  Timestamps
(`Date.now()`) are `Nat`.  The single MongoDB collection `bridge` is a
`List DbRecord` of type-tagged records; `updateOne(filter, {$set}, upsert)`
replaces the first record matching the filter or appends, and `deleteOne`
removes the first match.  A fallible durable write is given its outcome as
an explicit `dbOk : Bool` argument: `false` means `updateOne` threw and the
surrounding `catch` block ran.
-/

/-- `Map.get k` on an association list: value of the first pair whose key is
`k`. -/
def alGet {κ ν : Type} [DecidableEq κ] (k : κ) : List (κ × ν) → Option ν
  | [] => none
  | (k', v) :: rest => if k' = k then some v else alGet k rest

/-- `Map.set k v` on an association list: replace the first binding of `k`
in place, or append a new binding at the end. -/
def alUpsert {κ ν : Type} [DecidableEq κ] (k : κ) (v : ν) :
    List (κ × ν) → List (κ × ν)
  | [] => [(k, v)]
  | (k', v') :: rest =>
      if k' = k then (k, v) :: rest else (k', v') :: alUpsert k v rest

/-- `Map.delete k` on an association list: drop every binding of `k`. -/
def alRemove {κ ν : Type} [DecidableEq κ] (k : κ) :
    List (κ × ν) → List (κ × ν)
  | [] => []
  | (k', v) :: rest =>
      if k' = k then alRemove k rest else (k', v) :: alRemove k rest

theorem alGet_alUpsert {κ ν : Type} [DecidableEq κ] (k k' : κ) (v : ν)
    (l : List (κ × ν)) :
    alGet k' (alUpsert k v l) = if k = k' then some v else alGet k' l := by
  induction l with
  | nil => by_cases h : k = k' <;> simp [alUpsert, alGet, h]
  | cons p rest ih =>
    obtain ⟨a, b⟩ := p
    by_cases hak : a = k
    · subst hak
      by_cases hk : a = k' <;> simp [alUpsert, alGet, hk]
    · by_cases hk' : a = k'
      · subst hk'
        have : ¬ k = a := fun h => hak h.symm
        simp [alUpsert, alGet, hak, this]
      · simp [alUpsert, alGet, hak, hk', ih]

theorem alGet_alUpsert_self {κ ν : Type} [DecidableEq κ] (k : κ) (v : ν)
    (l : List (κ × ν)) : alGet k (alUpsert k v l) = some v := by
  simp [alGet_alUpsert]

/-! ## Access Control Gate (§4.6, claims C8 / C4 / C3)

`src/TelegramBridge.js` keeps `authorizedUsers : Set` and
`blockedUsers : Set` (constructor lines 43-45 / 2381-2382). -/

/-- The allow and block sets of a bridge instance. -/
structure AuthState where
  authorizedUsers : List Nat
  blockedUsers : List Nat
deriving DecidableEq

/-- Variant 1 `isAuthorized` (TelegramBridge.js:124-126):
`this.authorizedUsers.has(userId) && !this.blockedUsers.has(userId)`. -/
def isAuthorized (s : AuthState) (userId : Nat) : Bool :=
  s.authorizedUsers.contains userId && !(s.blockedUsers.contains userId)

/-- Variant 2 `isAuthorized` (TelegramBridge.js:2455-2457):
`this.authorizedUsers.has(userId)` — the block set is ignored. -/
def isAuthorizedV2 (s : AuthState) (userId : Nat) : Bool :=
  s.authorizedUsers.contains userId

/-! ## Rate limiter (§4.6, claim C3)

`checkRateLimit` (TelegramBridge.js:129-151).  The per-key entry
`{count, resetTime}` lives in `this.rateLimiter`; the configuration is
`{messages, window}` (spec names: `maxCount`, `windowMs`). -/

/-- One `this.rateLimiter` entry: `{ count, resetTime }`. -/
structure RateEntry where
  count : Nat
  resetTime : Nat
deriving DecidableEq

/-- `config.get('telegram.rateLimit') || { messages: 30, window: 60000 }`. -/
structure RateConfig where
  messages : Nat
  window : Nat
deriving DecidableEq

/-- `checkRateLimit` acting on the entry for one `userId_action` key.
Returns the boolean result together with the new entry.  Mirrors
TelegramBridge.js:129-151: a missing entry or an expired window
(`now > data.resetTime`) resets to `{count: 1, resetTime: now + window}`
and allows; otherwise `count >= messages` rejects without mutation, else
the count is incremented and the request is allowed. -/
def checkRateLimit (cfg : RateConfig) (entry : Option RateEntry) (now : Nat) :
    Bool × RateEntry :=
  match entry with
  | none => (true, ⟨1, now + cfg.window⟩)
  | some data =>
      if now > data.resetTime then
        (true, ⟨1, now + cfg.window⟩)
      else if data.count ≥ cfg.messages then
        (false, data)
      else
        (true, ⟨data.count + 1, data.resetTime⟩)

/-- Run a sequence of requests (given by their arrival times) through
`checkRateLimit`, starting from no entry, returning the number of rejected
requests and the final entry. -/
def runRateRequests (cfg : RateConfig) :
    List Nat → Option RateEntry → Nat
  | [], _ => 0
  | t :: rest, entry =>
      (if (checkRateLimit cfg entry t).1 then 0 else 1) +
        runRateRequests cfg rest (some (checkRateLimit cfg entry t).2)

/-! ## Mapping Store (§4.1, claims C5, C6, C7)

The durable store is the single MongoDB collection `bridge`
(`initializeDatabase`, TelegramBridge.js:104-121), holding type-tagged
records `{type, data}`.  `updateOne(filter, {$set: ...}, {upsert: true})`
replaces the first record matching the filter or inserts a new one. -/

/-- A WhatsApp message key (`whatsappMsg.key`): `{remoteJid, id, fromMe}`. -/
structure WaKey where
  remoteJid : String
  keyId : String
  fromMe : Bool
deriving DecidableEq

/-- Cached user data (`this.userMappings` values and the `user` record's
`data`). -/
structure UserData where
  name : Option String
  phone : String
  firstSeen : Nat
  messageCount : Nat
deriving DecidableEq

/-- Per-thread ephemeral settings (`this.ephemeralSettings` values). -/
structure EphemeralData where
  enabled : Bool
  timer : Nat
deriving DecidableEq

/-- One document of the `bridge` collection, discriminated by `type`
exactly as written by the `save*Mapping` functions
(TelegramBridge.js:192-305) and read back by `loadMappingsFromDb`
(TelegramBridge.js:153-189). -/
inductive DbRecord where
  | chat (whatsappJid : String) (telegramTopicId : Nat)
      (createdAt lastActivity : Nat)
  | user (whatsappId : String) (data : UserData) (lastSeen : Nat)
  | contact (phone name : String) (updatedAt : Nat)
  | message (telegramMsgId : Nat) (whatsappKey : WaKey) (createdAt : Nat)
  | ephemeral (chatJid : String) (data : EphemeralData)
deriving DecidableEq

/-- `updateOne(filter, {$set: rec}, {upsert: true})`: replace the first
record satisfying `pred` or append `rec`. -/
def dbUpsert (pred : DbRecord → Bool) (rec : DbRecord) :
    List DbRecord → List DbRecord
  | [] => [rec]
  | r :: rest =>
      if pred r then rec :: rest else r :: dbUpsert pred rec rest

/-- `deleteOne(filter)`: remove the first record satisfying `pred`. -/
def dbDeleteOne (pred : DbRecord → Bool) :
    List DbRecord → List DbRecord
  | [] => []
  | r :: rest => if pred r then rest else r :: dbDeleteOne pred rest

/-- Filter `{ type: 'chat', 'data.whatsappJid': jid }`. -/
def matchesChat (jid : String) : DbRecord → Bool
  | .chat j _ _ _ => j = jid
  | _ => false

/-- Filter `{ type: 'user', 'data.whatsappId': id }`. -/
def matchesUser (whatsappId : String) : DbRecord → Bool
  | .user i _ _ => i = whatsappId
  | _ => false

/-- Filter `{ type: 'contact', 'data.phone': phone }`. -/
def matchesContact (phone : String) : DbRecord → Bool
  | .contact p _ _ => p = phone
  | _ => false

/-- Filter `{ type: 'message', 'data.telegramMsgId': id }`. -/
def matchesMessage (telegramMsgId : Nat) : DbRecord → Bool
  | .message i _ _ => i = telegramMsgId
  | _ => false

/-- The in-memory caches of variant 1 together with the durable
collection.  Fields follow the constructor (TelegramBridge.js:21-46). -/
structure BridgeState where
  chatMappings : List (String × Nat)
  userMappings : List (String × UserData)
  contactMappings : List (String × String)
  messageIdMapping : List (Nat × WaKey)
  ephemeralSettings : List (String × EphemeralData)
  topicVerificationCache : List (String × Bool)
  groupParticipants : List (String × List String)
  collection : List DbRecord
deriving DecidableEq

/-- The empty bridge state: fresh constructor, empty collection. -/
def emptyBridgeState : BridgeState :=
  ⟨[], [], [], [], [], [], [], []⟩

/-- `saveChatMapping(whatsappJid, telegramTopicId)`
(TelegramBridge.js:233-256).  `dbOk = false` means the `updateOne` threw:
the `catch` block logs and everything after the `await` — including the
cache update — is skipped. -/
def saveChatMapping (st : BridgeState) (whatsappJid : String)
    (telegramTopicId : Nat) (now : Nat) (dbOk : Bool) : BridgeState :=
  if dbOk then
    { st with
      collection := dbUpsert (matchesChat whatsappJid)
        (.chat whatsappJid telegramTopicId now now) st.collection
      chatMappings := alUpsert whatsappJid telegramTopicId st.chatMappings
      topicVerificationCache := alRemove whatsappJid st.topicVerificationCache }
  else
    st

/-- `saveUserMapping(whatsappId, userData)` (TelegramBridge.js:258-282),
same shape: durable `updateOne` first, cache update only on success. -/
def saveUserMapping (st : BridgeState) (whatsappId : String)
    (userData : UserData) (now : Nat) (dbOk : Bool) : BridgeState :=
  if dbOk then
    { st with
      collection := dbUpsert (matchesUser whatsappId)
        (.user whatsappId userData now) st.collection
      userMappings := alUpsert whatsappId userData st.userMappings }
  else
    st

/-- `saveContactMapping(phone, name)` (TelegramBridge.js:284-305). -/
def saveContactMapping (st : BridgeState) (phone name : String)
    (now : Nat) (dbOk : Bool) : BridgeState :=
  if dbOk then
    { st with
      collection := dbUpsert (matchesContact phone)
        (.contact phone name now) st.collection
      contactMappings := alUpsert phone name st.contactMappings }
  else
    st

/-- `saveMessageMapping(telegramMsgId, whatsappKey)`
(TelegramBridge.js:192-212). -/
def saveMessageMapping (st : BridgeState) (telegramMsgId : Nat)
    (whatsappKey : WaKey) (now : Nat) (dbOk : Bool) : BridgeState :=
  if dbOk then
    { st with
      collection := dbUpsert (matchesMessage telegramMsgId)
        (.message telegramMsgId whatsappKey now) st.collection
      messageIdMapping := alUpsert telegramMsgId whatsappKey st.messageIdMapping }
  else
    st

/-- One step of the `for (const mapping of mappings)` loop of
`loadMappingsFromDb` (TelegramBridge.js:157-183): route the record into the
cache selected by its `type`. -/
def loadRecord (st : BridgeState) : DbRecord → BridgeState
  | .chat jid topicId _ _ =>
      { st with chatMappings := alUpsert jid topicId st.chatMappings }
  | .user whatsappId data _ =>
      { st with userMappings := alUpsert whatsappId data st.userMappings }
  | .contact phone name _ =>
      { st with contactMappings := alUpsert phone name st.contactMappings }
  | .message telegramMsgId whatsappKey _ =>
      { st with messageIdMapping :=
          alUpsert telegramMsgId whatsappKey st.messageIdMapping }
  | .ephemeral chatJid data =>
      { st with ephemeralSettings := alUpsert chatJid data st.ephemeralSettings }

/-- `loadMappingsFromDb` run on a state whose caches have been cleared:
fold every record of the collection into the caches in collection order. -/
def loadMappingsFromDb (st : BridgeState) : BridgeState :=
  st.collection.foldl loadRecord st

/-- Clearing every in-memory cache (the premise of the round-trip claim);
the durable collection is untouched. -/
def clearCaches (st : BridgeState) : BridgeState :=
  { st with chatMappings := [], userMappings := [], contactMappings := [],
            messageIdMapping := [], ephemeralSettings := [] }

/-! ### Round-trip infrastructure (claim C6)

Each record type feeds exactly one cache.  `xEntry` projects a record to
the cache entry it produces, `loadProj` replays the load loop for a single
cache, and `db.filterMap xEntry` is the final content of that cache when
the collection holds at most one record per key (which the unique indexes
of `initializeDatabase` enforce and the `updateOne` upserts maintain). -/

/-- The cache entry a `chat` record produces on load. -/
def chatEntry : DbRecord → Option (String × Nat)
  | .chat j t _ _ => some (j, t)
  | _ => none

/-- The cache entry a `user` record produces on load. -/
def userEntry : DbRecord → Option (String × UserData)
  | .user i d _ => some (i, d)
  | _ => none

/-- The cache entry a `contact` record produces on load. -/
def contactEntry : DbRecord → Option (String × String)
  | .contact p n _ => some (p, n)
  | _ => none

/-- The cache entry a `message` record produces on load. -/
def messageEntry : DbRecord → Option (Nat × WaKey)
  | .message i k _ => some (i, k)
  | _ => none

/-- The cache entry an `ephemeral` record produces on load. -/
def ephemeralEntry : DbRecord → Option (String × EphemeralData)
  | .ephemeral j d => some (j, d)
  | _ => none

/-- Replay the load loop for a single cache: fold the projected entries
into the accumulator with `Map.set`. -/
def loadProj {κ ν : Type} [DecidableEq κ] (proj : DbRecord → Option (κ × ν))
    (acc : List (κ × ν)) : List DbRecord → List (κ × ν)
  | [] => acc
  | r :: rest =>
      match proj r with
      | some (k, v) => loadProj proj (alUpsert k v acc) rest
      | none => loadProj proj acc rest

theorem foldl_loadRecord_chat (db : List DbRecord) :
    ∀ st : BridgeState,
      (db.foldl loadRecord st).chatMappings =
        loadProj chatEntry st.chatMappings db := by
  induction db with
  | nil => intro st; simp [loadProj]
  | cons r rest ih =>
    intro st
    cases r <;> simp [loadRecord, loadProj, chatEntry, ih]

theorem foldl_loadRecord_user (db : List DbRecord) :
    ∀ st : BridgeState,
      (db.foldl loadRecord st).userMappings =
        loadProj userEntry st.userMappings db := by
  induction db with
  | nil => intro st; simp [loadProj]
  | cons r rest ih =>
    intro st
    cases r <;> simp [loadRecord, loadProj, userEntry, ih]

theorem foldl_loadRecord_contact (db : List DbRecord) :
    ∀ st : BridgeState,
      (db.foldl loadRecord st).contactMappings =
        loadProj contactEntry st.contactMappings db := by
  induction db with
  | nil => intro st; simp [loadProj]
  | cons r rest ih =>
    intro st
    cases r <;> simp [loadRecord, loadProj, contactEntry, ih]

theorem foldl_loadRecord_message (db : List DbRecord) :
    ∀ st : BridgeState,
      (db.foldl loadRecord st).messageIdMapping =
        loadProj messageEntry st.messageIdMapping db := by
  induction db with
  | nil => intro st; simp [loadProj]
  | cons r rest ih =>
    intro st
    cases r <;> simp [loadRecord, loadProj, messageEntry, ih]

theorem foldl_loadRecord_ephemeral (db : List DbRecord) :
    ∀ st : BridgeState,
      (db.foldl loadRecord st).ephemeralSettings =
        loadProj ephemeralEntry st.ephemeralSettings db := by
  induction db with
  | nil => intro st; simp [loadProj]
  | cons r rest ih =>
    intro st
    cases r <;> simp [loadRecord, loadProj, ephemeralEntry, ih]

theorem alGet_eq_none_append {κ ν : Type} [DecidableEq κ]
    (k k' : κ) (v : ν) (l : List (κ × ν))
    (h1 : alGet k' l = none) (h2 : k' ≠ k) :
    alGet k' (l ++ [(k, v)]) = none := by
  induction l with
  | nil =>
    simp only [List.nil_append, alGet]
    rw [if_neg (fun h => h2 h.symm)]
  | cons p rest ih =>
    obtain ⟨a, b⟩ := p
    by_cases ha : a = k'
    · simp [alGet, ha] at h1
    · simp [alGet, ha] at h1 ⊢
      exact ih h1

theorem alUpsert_eq_append {κ ν : Type} [DecidableEq κ]
    (k : κ) (v : ν) (l : List (κ × ν)) (h : alGet k l = none) :
    alUpsert k v l = l ++ [(k, v)] := by
  induction l with
  | nil => simp [alUpsert]
  | cons p rest ih =>
    obtain ⟨a, b⟩ := p
    by_cases ha : a = k
    · simp [alGet, ha] at h
    · simp [alGet, ha] at h
      simp [alUpsert, ha, ih h]

/-- When the projected entries of the collection have pairwise-distinct
keys (the unique-index discipline) and none of them is already bound in
the accumulator, the load loop appends them verbatim. -/
theorem loadProj_eq_append {κ ν : Type} [DecidableEq κ]
    (proj : DbRecord → Option (κ × ν)) (db : List DbRecord) :
    ∀ acc : List (κ × ν),
      ((db.filterMap proj).map Prod.fst).Nodup →
      (∀ k ∈ (db.filterMap proj).map Prod.fst, alGet k acc = none) →
      loadProj proj acc db = acc ++ db.filterMap proj := by
  induction db with
  | nil => intro acc _ _; simp [loadProj]
  | cons r rest ih =>
    intro acc hnd hdisj
    cases hr : proj r with
    | none =>
      rw [List.filterMap_cons_none hr] at hnd hdisj
      simp only [loadProj, hr]
      rw [List.filterMap_cons_none hr]
      exact ih acc hnd hdisj
    | some p =>
      obtain ⟨k, v⟩ := p
      rw [List.filterMap_cons_some hr] at hnd hdisj
      simp only [List.map_cons, List.nodup_cons] at hnd
      obtain ⟨hknotin, hnd'⟩ := hnd
      have hacc : alGet k acc = none := hdisj k (by simp)
      have hdisj' : ∀ k' ∈ (rest.filterMap proj).map Prod.fst,
          alGet k' (alUpsert k v acc) = none := by
        intro k' hk'
        rw [alUpsert_eq_append k v acc hacc]
        exact alGet_eq_none_append k k' v acc
          (hdisj k' (by simp [hk']))
          (fun hkk => hknotin (hkk ▸ hk'))
      simp only [loadProj, hr]
      rw [ih (alUpsert k v acc) hnd' hdisj', alUpsert_eq_append k v acc hacc,
        List.filterMap_cons_some hr]
      simp

/-- An upsert whose filter and record live in a different record type
leaves a projection untouched. -/
theorem filterMap_dbUpsert_of_none {κ ν : Type}
    (proj : DbRecord → Option (κ × ν)) (pred : DbRecord → Bool)
    (rec : DbRecord) (db : List DbRecord)
    (hrec : proj rec = none)
    (hpred : ∀ r, pred r = true → proj r = none) :
    (dbUpsert pred rec db).filterMap proj = db.filterMap proj := by
  induction db with
  | nil => simp [dbUpsert, List.filterMap_cons_none hrec]
  | cons r rest ih =>
    by_cases hp : pred r = true
    · rw [dbUpsert, if_pos hp, List.filterMap_cons_none hrec,
        List.filterMap_cons_none (hpred r hp)]
    · rw [dbUpsert, if_neg hp]
      cases hr : proj r with
      | none => rw [List.filterMap_cons_none hr, List.filterMap_cons_none hr, ih]
      | some p => rw [List.filterMap_cons_some hr, List.filterMap_cons_some hr, ih]

/-- An upsert whose filter selects exactly the records projecting to key
`k` acts on the projection as `Map.set k v`. -/
theorem filterMap_dbUpsert_same {κ ν : Type} [DecidableEq κ]
    (proj : DbRecord → Option (κ × ν)) (pred : DbRecord → Bool)
    (rec : DbRecord) (k : κ) (v : ν) (db : List DbRecord)
    (hrec : proj rec = some (k, v))
    (hpred : ∀ r, pred r = true ↔ ∃ v', proj r = some (k, v')) :
    (dbUpsert pred rec db).filterMap proj =
      alUpsert k v (db.filterMap proj) := by
  induction db with
  | nil => simp [dbUpsert, List.filterMap_cons_some hrec, alUpsert]
  | cons r rest ih =>
    by_cases hp : pred r = true
    · obtain ⟨v', hv'⟩ := (hpred r).mp hp
      rw [dbUpsert, if_pos hp, List.filterMap_cons_some hrec,
        List.filterMap_cons_some hv', alUpsert, if_pos rfl]
    · rw [dbUpsert, if_neg hp]
      cases hr : proj r with
      | none => rw [List.filterMap_cons_none hr, List.filterMap_cons_none hr, ih]
      | some p =>
        obtain ⟨k', v'⟩ := p
        have hkk : k' ≠ k := by
          intro hkk
          exact hp ((hpred r).mpr ⟨v', hkk ▸ hr⟩)
        rw [List.filterMap_cons_some hr, List.filterMap_cons_some hr, ih,
          alUpsert, if_neg hkk]

theorem mem_keys_alUpsert {κ ν : Type} [DecidableEq κ]
    (x k : κ) (v : ν) (l : List (κ × ν)) :
    x ∈ (alUpsert k v l).map Prod.fst ↔ x = k ∨ x ∈ l.map Prod.fst := by
  induction l with
  | nil => simp [alUpsert, eq_comm]
  | cons p rest ih =>
    obtain ⟨a, b⟩ := p
    by_cases ha : a = k
    · subst ha
      simp [alUpsert, eq_comm]
    · simp only [alUpsert, if_neg ha, List.map_cons, List.mem_cons, ih]
      tauto

theorem nodup_keys_alUpsert {κ ν : Type} [DecidableEq κ]
    (k : κ) (v : ν) (l : List (κ × ν))
    (h : (l.map Prod.fst).Nodup) :
    ((alUpsert k v l).map Prod.fst).Nodup := by
  induction l with
  | nil => simp [alUpsert]
  | cons p rest ih =>
    obtain ⟨a, b⟩ := p
    simp only [List.map_cons, List.nodup_cons] at h
    by_cases ha : a = k
    · subst ha
      simp only [alUpsert, if_true, eq_self_iff_true, List.map_cons,
        List.nodup_cons]
      exact h
    · simp only [alUpsert, if_neg ha, List.map_cons, List.nodup_cons]
      refine ⟨?_, ih h.2⟩
      rw [mem_keys_alUpsert]
      rintro (rfl | hmem)
      · exact ha rfl
      · exact h.1 hmem

theorem matchesChat_iff (jid : String) (r : DbRecord) :
    matchesChat jid r = true ↔ ∃ v', chatEntry r = some (jid, v') := by
  cases r <;> simp [matchesChat, chatEntry, eq_comm]

theorem matchesUser_iff (i : String) (r : DbRecord) :
    matchesUser i r = true ↔ ∃ v', userEntry r = some (i, v') := by
  cases r <;> simp [matchesUser, userEntry, eq_comm]

theorem matchesContact_iff (p : String) (r : DbRecord) :
    matchesContact p r = true ↔ ∃ v', contactEntry r = some (p, v') := by
  cases r <;> simp [matchesContact, contactEntry, eq_comm]

theorem matchesMessage_iff (i : Nat) (r : DbRecord) :
    matchesMessage i r = true ↔ ∃ v', messageEntry r = some (i, v') := by
  cases r <;> simp [matchesMessage, messageEntry, eq_comm]

/-- The five caches agree with the projections of the durable collection
(the write-through discipline of §4.1). -/
def CacheSync (st : BridgeState) : Prop :=
  st.chatMappings = st.collection.filterMap chatEntry ∧
  st.userMappings = st.collection.filterMap userEntry ∧
  st.contactMappings = st.collection.filterMap contactEntry ∧
  st.messageIdMapping = st.collection.filterMap messageEntry ∧
  st.ephemeralSettings = st.collection.filterMap ephemeralEntry

/-- The collection holds at most one record per natural key and type —
the discipline the unique indexes of `initializeDatabase` enforce. -/
def KeysNodup (st : BridgeState) : Prop :=
  ((st.collection.filterMap chatEntry).map Prod.fst).Nodup ∧
  ((st.collection.filterMap userEntry).map Prod.fst).Nodup ∧
  ((st.collection.filterMap contactEntry).map Prod.fst).Nodup ∧
  ((st.collection.filterMap messageEntry).map Prod.fst).Nodup ∧
  ((st.collection.filterMap ephemeralEntry).map Prod.fst).Nodup

/-- One call to a `save*Mapping` function, with the outcome of its durable
write. -/
inductive StoreOp where
  | chat (jid : String) (topicId : Nat) (now : Nat) (dbOk : Bool)
  | user (whatsappId : String) (d : UserData) (now : Nat) (dbOk : Bool)
  | contact (phone name : String) (now : Nat) (dbOk : Bool)
  | message (tgId : Nat) (key : WaKey) (now : Nat) (dbOk : Bool)

/-- Dispatch one store operation to the corresponding save function. -/
def applyStoreOp (st : BridgeState) : StoreOp → BridgeState
  | .chat jid topicId now dbOk => saveChatMapping st jid topicId now dbOk
  | .user i d now dbOk => saveUserMapping st i d now dbOk
  | .contact p n now dbOk => saveContactMapping st p n now dbOk
  | .message i k now dbOk => saveMessageMapping st i k now dbOk

/-- A whole history of save calls. -/
def applyStoreOps (st : BridgeState) (ops : List StoreOp) : BridgeState :=
  ops.foldl applyStoreOp st

theorem cacheSync_applyStoreOp (st : BridgeState) (op : StoreOp)
    (hs : CacheSync st) (hn : KeysNodup st) :
    CacheSync (applyStoreOp st op) ∧ KeysNodup (applyStoreOp st op) := by
  obtain ⟨h1, h2, h3, h4, h5⟩ := hs
  obtain ⟨n1, n2, n3, n4, n5⟩ := hn
  cases op with
  | chat jid topicId now dbOk =>
    cases dbOk with
    | false =>
      exact ⟨⟨h1, h2, h3, h4, h5⟩, n1, n2, n3, n4, n5⟩
    | true =>
      have same := filterMap_dbUpsert_same chatEntry (matchesChat jid)
        (.chat jid topicId now now) jid topicId st.collection rfl
        (matchesChat_iff jid)
      have ou := filterMap_dbUpsert_of_none userEntry (matchesChat jid)
        (.chat jid topicId now now) st.collection rfl
        (by intro r hr; cases r <;> simp_all [matchesChat, userEntry])
      have oc := filterMap_dbUpsert_of_none contactEntry (matchesChat jid)
        (.chat jid topicId now now) st.collection rfl
        (by intro r hr; cases r <;> simp_all [matchesChat, contactEntry])
      have om := filterMap_dbUpsert_of_none messageEntry (matchesChat jid)
        (.chat jid topicId now now) st.collection rfl
        (by intro r hr; cases r <;> simp_all [matchesChat, messageEntry])
      have oe := filterMap_dbUpsert_of_none ephemeralEntry (matchesChat jid)
        (.chat jid topicId now now) st.collection rfl
        (by intro r hr; cases r <;> simp_all [matchesChat, ephemeralEntry])
      refine ⟨⟨?_, ?_, ?_, ?_, ?_⟩, ?_, ?_, ?_, ?_, ?_⟩ <;>
        simp only [applyStoreOp, saveChatMapping, if_true, same, ou, oc, om, oe]
      · rw [h1]
      · exact h2
      · exact h3
      · exact h4
      · exact h5
      · rw [← h1]; exact nodup_keys_alUpsert _ _ _ (h1 ▸ n1)
      · exact n2
      · exact n3
      · exact n4
      · exact n5
  | user i d now dbOk =>
    cases dbOk with
    | false =>
      exact ⟨⟨h1, h2, h3, h4, h5⟩, n1, n2, n3, n4, n5⟩
    | true =>
      have same := filterMap_dbUpsert_same userEntry (matchesUser i)
        (.user i d now) i d st.collection rfl (matchesUser_iff i)
      have oc1 := filterMap_dbUpsert_of_none chatEntry (matchesUser i)
        (.user i d now) st.collection rfl
        (by intro r hr; cases r <;> simp_all [matchesUser, chatEntry])
      have oc3 := filterMap_dbUpsert_of_none contactEntry (matchesUser i)
        (.user i d now) st.collection rfl
        (by intro r hr; cases r <;> simp_all [matchesUser, contactEntry])
      have oc4 := filterMap_dbUpsert_of_none messageEntry (matchesUser i)
        (.user i d now) st.collection rfl
        (by intro r hr; cases r <;> simp_all [matchesUser, messageEntry])
      have oc5 := filterMap_dbUpsert_of_none ephemeralEntry (matchesUser i)
        (.user i d now) st.collection rfl
        (by intro r hr; cases r <;> simp_all [matchesUser, ephemeralEntry])
      refine ⟨⟨?_, ?_, ?_, ?_, ?_⟩, ?_, ?_, ?_, ?_, ?_⟩ <;>
        simp only [applyStoreOp, saveUserMapping, if_true, same, oc1, oc3,
          oc4, oc5]
      · exact h1
      · rw [h2]
      · exact h3
      · exact h4
      · exact h5
      · exact n1
      · rw [← h2]; exact nodup_keys_alUpsert _ _ _ (h2 ▸ n2)
      · exact n3
      · exact n4
      · exact n5
  | contact p n now dbOk =>
    cases dbOk with
    | false =>
      exact ⟨⟨h1, h2, h3, h4, h5⟩, n1, n2, n3, n4, n5⟩
    | true =>
      have same := filterMap_dbUpsert_same contactEntry (matchesContact p)
        (.contact p n now) p n st.collection rfl (matchesContact_iff p)
      have oc1 := filterMap_dbUpsert_of_none chatEntry (matchesContact p)
        (.contact p n now) st.collection rfl
        (by intro r hr; cases r <;> simp_all [matchesContact, chatEntry])
      have oc2 := filterMap_dbUpsert_of_none userEntry (matchesContact p)
        (.contact p n now) st.collection rfl
        (by intro r hr; cases r <;> simp_all [matchesContact, userEntry])
      have oc4 := filterMap_dbUpsert_of_none messageEntry (matchesContact p)
        (.contact p n now) st.collection rfl
        (by intro r hr; cases r <;> simp_all [matchesContact, messageEntry])
      have oc5 := filterMap_dbUpsert_of_none ephemeralEntry (matchesContact p)
        (.contact p n now) st.collection rfl
        (by intro r hr; cases r <;> simp_all [matchesContact, ephemeralEntry])
      refine ⟨⟨?_, ?_, ?_, ?_, ?_⟩, ?_, ?_, ?_, ?_, ?_⟩ <;>
        simp only [applyStoreOp, saveContactMapping, if_true, same, oc1, oc2,
          oc4, oc5]
      · exact h1
      · exact h2
      · rw [h3]
      · exact h4
      · exact h5
      · exact n1
      · exact n2
      · rw [← h3]; exact nodup_keys_alUpsert _ _ _ (h3 ▸ n3)
      · exact n4
      · exact n5
  | message i k now dbOk =>
    cases dbOk with
    | false =>
      exact ⟨⟨h1, h2, h3, h4, h5⟩, n1, n2, n3, n4, n5⟩
    | true =>
      have same := filterMap_dbUpsert_same messageEntry (matchesMessage i)
        (.message i k now) i k st.collection rfl (matchesMessage_iff i)
      have oc1 := filterMap_dbUpsert_of_none chatEntry (matchesMessage i)
        (.message i k now) st.collection rfl
        (by intro r hr; cases r <;> simp_all [matchesMessage, chatEntry])
      have oc2 := filterMap_dbUpsert_of_none userEntry (matchesMessage i)
        (.message i k now) st.collection rfl
        (by intro r hr; cases r <;> simp_all [matchesMessage, userEntry])
      have oc3 := filterMap_dbUpsert_of_none contactEntry (matchesMessage i)
        (.message i k now) st.collection rfl
        (by intro r hr; cases r <;> simp_all [matchesMessage, contactEntry])
      have oc5 := filterMap_dbUpsert_of_none ephemeralEntry (matchesMessage i)
        (.message i k now) st.collection rfl
        (by intro r hr; cases r <;> simp_all [matchesMessage, ephemeralEntry])
      refine ⟨⟨?_, ?_, ?_, ?_, ?_⟩, ?_, ?_, ?_, ?_, ?_⟩ <;>
        simp only [applyStoreOp, saveMessageMapping, if_true, same, oc1, oc2,
          oc3, oc5]
      · exact h1
      · exact h2
      · exact h3
      · rw [h4]
      · exact h5
      · exact n1
      · exact n2
      · exact n3
      · rw [← h4]; exact nodup_keys_alUpsert _ _ _ (h4 ▸ n4)
      · exact n5

theorem cacheSync_applyStoreOps (ops : List StoreOp) :
    ∀ st : BridgeState, CacheSync st → KeysNodup st →
      CacheSync (applyStoreOps st ops) ∧ KeysNodup (applyStoreOps st ops) := by
  induction ops with
  | nil => intro st hs hn; exact ⟨hs, hn⟩
  | cons op rest ih =>
    intro st hs hn
    have h := cacheSync_applyStoreOp st op hs hn
    simpa [applyStoreOps, List.foldl_cons] using
      ih (applyStoreOp st op) h.1 h.2

theorem cacheSync_empty : CacheSync emptyBridgeState := by
  refine ⟨rfl, rfl, rfl, rfl, rfl⟩

theorem keysNodup_empty : KeysNodup emptyBridgeState := by
  refine ⟨List.nodup_nil, List.nodup_nil, List.nodup_nil, List.nodup_nil,
    List.nodup_nil⟩

/-- Reloading a synced, key-unique state from its durable collection after
clearing the caches reproduces every cache. -/
theorem loadMappings_eq_of_sync (st : BridgeState)
    (hs : CacheSync st) (hn : KeysNodup st) :
    (loadMappingsFromDb (clearCaches st)).chatMappings = st.chatMappings ∧
    (loadMappingsFromDb (clearCaches st)).userMappings = st.userMappings ∧
    (loadMappingsFromDb (clearCaches st)).contactMappings =
      st.contactMappings ∧
    (loadMappingsFromDb (clearCaches st)).messageIdMapping =
      st.messageIdMapping ∧
    (loadMappingsFromDb (clearCaches st)).ephemeralSettings =
      st.ephemeralSettings := by
  obtain ⟨h1, h2, h3, h4, h5⟩ := hs
  obtain ⟨n1, n2, n3, n4, n5⟩ := hn
  have hcol : (clearCaches st).collection = st.collection := rfl
  refine ⟨?_, ?_, ?_, ?_, ?_⟩
  · rw [loadMappingsFromDb, hcol, foldl_loadRecord_chat]
    have : (clearCaches st).chatMappings = [] := rfl
    rw [this, loadProj_eq_append chatEntry st.collection [] n1
      (fun k _ => rfl), List.nil_append, ← h1]
  · rw [loadMappingsFromDb, hcol, foldl_loadRecord_user]
    have : (clearCaches st).userMappings = [] := rfl
    rw [this, loadProj_eq_append userEntry st.collection [] n2
      (fun k _ => rfl), List.nil_append, ← h2]
  · rw [loadMappingsFromDb, hcol, foldl_loadRecord_contact]
    have : (clearCaches st).contactMappings = [] := rfl
    rw [this, loadProj_eq_append contactEntry st.collection [] n3
      (fun k _ => rfl), List.nil_append, ← h3]
  · rw [loadMappingsFromDb, hcol, foldl_loadRecord_message]
    have : (clearCaches st).messageIdMapping = [] := rfl
    rw [this, loadProj_eq_append messageEntry st.collection [] n4
      (fun k _ => rfl), List.nil_append, ← h4]
  · rw [loadMappingsFromDb, hcol, foldl_loadRecord_ephemeral]
    have : (clearCaches st).ephemeralSettings = [] := rfl
    rw [this, loadProj_eq_append ephemeralEntry st.collection [] n5
      (fun k _ => rfl), List.nil_append, ← h5]

/-- Requests that all arrive while the window is still open: the counter
admits `messages - count` more requests and rejects the rest. -/
theorem runRateRequests_within (cfg : RateConfig) (rest : List Nat) :
    ∀ c rt : Nat, (∀ t' ∈ rest, t' ≤ rt) →
      runRateRequests cfg rest (some ⟨c, rt⟩) =
        rest.length - (cfg.messages - c) := by
  induction rest with
  | nil => intro c rt _; simp [runRateRequests]
  | cons t' rest ih =>
    intro c rt hle
    have ht' : t' ≤ rt := hle t' (List.mem_cons_self t' rest)
    have hrest : ∀ u ∈ rest, u ≤ rt :=
      fun u hu => hle u (List.mem_cons_of_mem t' hu)
    by_cases hc : cfg.messages ≤ c
    · have hwin : ¬ t' > rt := by omega
      have hck : checkRateLimit cfg (some ⟨c, rt⟩) t' = (false, ⟨c, rt⟩) := by
        simp only [checkRateLimit]
        rw [if_neg hwin, if_pos hc]
      simp only [runRateRequests, hck, List.length_cons]
      rw [ih c rt hrest]
      simp only [Bool.false_eq_true, if_false]
      omega
    · have hwin : ¬ t' > rt := by omega
      have hck : checkRateLimit cfg (some ⟨c, rt⟩) t' =
          (true, ⟨c + 1, rt⟩) := by
        simp only [checkRateLimit]
        rw [if_neg hwin, if_neg hc]
      simp only [runRateRequests, hck, List.length_cons, if_true]
      rw [ih (c + 1) rt hrest]
      omega

/-! ## Cross-Reference Index (§4.5, claim C7)

`this.messageIdMapping` is commented "Telegram msg ID -> WhatsApp msg key"
(TelegramBridge.js:29).  Every lookup the code performs on it is keyed by a
Telegram message id (`messageIdMapping.get(reaction.message_id)` at line
540, `messageIdMapping.get(quotedMsgId)` at line 1721, and the variant-2
copy at line 3929).  No code path queries the index by a WhatsApp key, so
resolution starting from the WhatsApp identity resolves to nothing. -/

/-- A message identity from either platform. -/
inductive MsgId where
  | telegram (id : Nat)
  | whatsapp (key : WaKey)
deriving DecidableEq

/-- Resolution of a message identity through `messageIdMapping`, the only
cross-reference index the bridge maintains: a Telegram id resolves via
`messageIdMapping.get`, a WhatsApp key has no lookup path in the code. -/
def resolveMsg (st : BridgeState) : MsgId → Option MsgId
  | .telegram id => (alGet id st.messageIdMapping).map MsgId.whatsapp
  | .whatsapp _ => none

/-- C6 (confirmed): for every history of `save*Mapping` calls starting from
a fresh bridge, clearing all in-memory caches and replaying
`loadMappingsFromDb` over the durable collection reproduces every cache —
in particular the externalThreadId → internalTopicId (chat) entries. -/
theorem c6_load_roundtrip (ops : List StoreOp) :
    (loadMappingsFromDb
        (clearCaches (applyStoreOps emptyBridgeState ops))).chatMappings =
      (applyStoreOps emptyBridgeState ops).chatMappings ∧
    (loadMappingsFromDb
        (clearCaches (applyStoreOps emptyBridgeState ops))).userMappings =
      (applyStoreOps emptyBridgeState ops).userMappings ∧
    (loadMappingsFromDb
        (clearCaches (applyStoreOps emptyBridgeState ops))).contactMappings =
      (applyStoreOps emptyBridgeState ops).contactMappings ∧
    (loadMappingsFromDb
        (clearCaches (applyStoreOps emptyBridgeState ops))).messageIdMapping =
      (applyStoreOps emptyBridgeState ops).messageIdMapping ∧
    (loadMappingsFromDb
        (clearCaches (applyStoreOps emptyBridgeState ops))).ephemeralSettings =
      (applyStoreOps emptyBridgeState ops).ephemeralSettings := by
  have h := cacheSync_applyStoreOps ops emptyBridgeState cacheSync_empty
    keysNodup_empty
  exact loadMappings_eq_of_sync _ h.1 h.2

/-- C3 (confirmed): the fixed-window rate limiter.  Part 1: a first-ever
request is allowed with a fresh window `{count 1, resetTime now+window}`.
Part 2: a request after the window expired is allowed and resets the
window.  Part 3: a request within the window with `count < messages` is
counted and allowed.  Part 4: a request within the window with
`count ≥ messages` is rejected without touching the entry.  Part 5: a burst
whose first request opens a window at `t0` and whose remaining requests all
arrive by `t0 + window` gets exactly `total - messages` rejections — one
per excess action. -/
theorem c3_rate_limit_fixed_window (cfg : RateConfig)
    (e2 e3 e4 : RateEntry) (now1 now2 now3 now4 t0 : Nat)
    (rest : List Nat) :
    checkRateLimit cfg none now1 = (true, ⟨1, now1 + cfg.window⟩) ∧
    (now2 > e2.resetTime →
      checkRateLimit cfg (some e2) now2 = (true, ⟨1, now2 + cfg.window⟩)) ∧
    (now3 ≤ e3.resetTime → e3.count < cfg.messages →
      checkRateLimit cfg (some e3) now3 =
        (true, ⟨e3.count + 1, e3.resetTime⟩)) ∧
    (now4 ≤ e4.resetTime → cfg.messages ≤ e4.count →
      checkRateLimit cfg (some e4) now4 = (false, e4)) ∧
    (1 ≤ cfg.messages → (∀ u ∈ rest, u ≤ t0 + cfg.window) →
      runRateRequests cfg (t0 :: rest) none =
        (rest.length + 1) - cfg.messages) := by
  refine ⟨rfl, ?_, ?_, ?_, ?_⟩
  · intro h
    simp only [checkRateLimit]
    rw [if_pos h]
  · intro hwin hcount
    simp only [checkRateLimit]
    rw [if_neg (by omega), if_neg (by omega)]
  · intro hwin hcount
    simp only [checkRateLimit]
    rw [if_neg (by omega), if_pos hcount]
  · intro hmsg hle
    have hck : checkRateLimit cfg none t0 = (true, ⟨1, t0 + cfg.window⟩) := rfl
    simp only [runRateRequests, hck, if_true]
    rw [runRateRequests_within cfg rest 1 (t0 + cfg.window) hle]
    omega

/-- Witness for `c3_rate_limit_fixed_window` at `cfg = {messages 2,
window 10}`: a 5-request burst at times 0,1,2,3,4 yields exactly 3
rejections, and each branch behaves as stated. -/
theorem c3_rate_limit_fixed_window_witness :
    checkRateLimit ⟨2, 10⟩ none 6 = (true, ⟨1, 16⟩) ∧
    checkRateLimit ⟨2, 10⟩ (some ⟨1, 5⟩) 6 = (true, ⟨1, 16⟩) ∧
    checkRateLimit ⟨2, 10⟩ (some ⟨1, 100⟩) 50 = (true, ⟨2, 100⟩) ∧
    checkRateLimit ⟨2, 10⟩ (some ⟨2, 100⟩) 50 = (false, ⟨2, 100⟩) ∧
    runRateRequests ⟨2, 10⟩ (0 :: [1, 2, 3, 4]) none = 3 := by
  have h := c3_rate_limit_fixed_window ⟨2, 10⟩ ⟨1, 5⟩ ⟨1, 100⟩ ⟨2, 100⟩
    6 6 50 50 0 [1, 2, 3, 4]
  exact ⟨h.1, h.2.1 (by decide), h.2.2.1 (by decide) (by decide),
    h.2.2.2.1 (by decide) (by decide),
    h.2.2.2.2 (by decide) (by decide)⟩

/-- C5 counterexample: the claim says that when the durable write fails the
in-memory cache "is still updated with the new value".  In the code the
cache update sits after the `await collection.updateOne` inside the `try`
block (TelegramBridge.js:233-256), so a throwing write skips it: after a
failing `saveChatMapping('123@s.whatsapp.net', 5)` on a fresh bridge the
cache still has no entry for the jid, not the claimed new value. -/
theorem c5_counterexample :
    alGet "123@s.whatsapp.net"
      (saveChatMapping emptyBridgeState "123@s.whatsapp.net" 5 0
        false).chatMappings = none := by
  rfl

/-- C5 (amended): for each of the four mapping types, a successful upsert
writes the durable record and then updates the cache, while a failing
durable write is only logged and leaves the caches (and the whole state)
unchanged. -/
theorem c5_upsert_durable_first (st : BridgeState) (jid : String)
    (topicId : Nat) (i : String) (d : UserData) (p n : String) (mid : Nat)
    (k : WaKey) (now : Nat) :
    (alGet jid (saveChatMapping st jid topicId now true).chatMappings =
        some topicId ∧
      (saveChatMapping st jid topicId now true).collection =
        dbUpsert (matchesChat jid) (.chat jid topicId now now)
          st.collection ∧
      saveChatMapping st jid topicId now false = st) ∧
    (alGet i (saveUserMapping st i d now true).userMappings = some d ∧
      saveUserMapping st i d now false = st) ∧
    (alGet p (saveContactMapping st p n now true).contactMappings = some n ∧
      saveContactMapping st p n now false = st) ∧
    (alGet mid (saveMessageMapping st mid k now true).messageIdMapping =
        some k ∧
      saveMessageMapping st mid k now false = st) := by
  refine ⟨⟨?_, rfl, rfl⟩, ⟨?_, rfl⟩, ⟨?_, rfl⟩, ⟨?_, rfl⟩⟩ <;>
    simp [saveChatMapping, saveUserMapping, saveContactMapping,
      saveMessageMapping, alGet_alUpsert_self]

/-- C7 counterexample: after recording the relay pairing (Telegram id 100 ↔
WhatsApp key `{123@s.whatsapp.net, ABC, fromMe: false}`), resolving the
remote (WhatsApp) key returns nothing — the code maintains only the
Telegram-id-keyed direction, so the claimed `resolve(remoteId) = localId`
fails. -/
theorem c7_counterexample :
    resolveMsg
      (saveMessageMapping emptyBridgeState 100
        ⟨"123@s.whatsapp.net", "ABC", false⟩ 0 true)
      (.whatsapp ⟨"123@s.whatsapp.net", "ABC", false⟩) = none := by
  rfl

/-- C7 (amended): the cross-reference recorded by `saveMessageMapping` is
one-directional: the local (Telegram) message id resolves to the remote
(WhatsApp) key, and no state resolves a WhatsApp key back to a Telegram
id. -/
theorem c7_resolve_one_directional (st : BridgeState) (tgId : Nat)
    (k : WaKey) (now : Nat) :
    resolveMsg (saveMessageMapping st tgId k now true) (.telegram tgId) =
      some (.whatsapp k) ∧
    ∀ k' : WaKey, resolveMsg st (.whatsapp k') = none := by
  constructor
  · simp [resolveMsg, saveMessageMapping, alGet_alUpsert_self]
  · intro k'
    rfl

/-- C8 counterexample: with user 7 both allow-listed and blocked, the
variant-2 `isAuthorized` (TelegramBridge.js:2455-2457) returns `true`
although the claim requires `false` for a blocked user: the claimed
iff fails. -/
theorem c8_counterexample :
    ¬ (isAuthorizedV2 ⟨[7], [7]⟩ 7 = true ↔
        (7 ∈ (AuthState.mk [7] [7]).authorizedUsers ∧
          7 ∉ (AuthState.mk [7] [7]).blockedUsers)) := by
  decide

/-- C8 (amended): the variant-1 `isAuthorized` returns true iff the user is
allow-listed and not blocked; the variant-2 `isAuthorized` returns true iff
the user is allow-listed, ignoring the block set. -/
theorem c8_isAuthorized_characterization (s : AuthState) (u : Nat) :
    (isAuthorized s u = true ↔
      u ∈ s.authorizedUsers ∧ u ∉ s.blockedUsers) ∧
    (isAuthorizedV2 s u = true ↔ u ∈ s.authorizedUsers) := by
  simp [isAuthorized, isAuthorizedV2, List.contains]

/-! ## Topic Lifecycle Manager (§4.2, claims C1, C2)

Variant 1: `verifyTopicExists` (TelegramBridge.js:744-758) probes a topic
by sending and deleting a `🔍` message; `getOrCreateTopic`
(TelegramBridge.js:1136-1206) probes an existing mapping, purges it from
cache and store on probe failure and falls through to creation.  The
platform boundary is an oracle `TopicEnv`: the probe outcome, the
configured chat id, the `createForumTopic` result (`none` = the call threw)
and the group metadata. -/

/-- The external-platform oracle for one `getOrCreateTopic` run. -/
structure TopicEnv where
  chatIdOk : Bool
  topicExists : Nat → Bool
  createTopic : Option Nat
  groupSubject : Option String
  groupMembers : List String
  dbOk : Bool

/-- JavaScript `s.startsWith(p)`, in a form the kernel can evaluate
(`String.startsWith` itself is compiled and does not reduce). -/
def jsStartsWith (s p : String) : Bool := p.data.isPrefixOf s.data

/-- JavaScript `s.endsWith(p)`, in a kernel-evaluable form. -/
def jsEndsWith (s p : String) : Bool := p.data.isSuffixOf s.data

/-- `jid.split('@')[0]`: the prefix before the first `@` (the whole string
when there is none), in a kernel-evaluable form. -/
def phoneOf (jid : String) : String := ⟨jid.data.takeWhile (fun ch => ch != '@')⟩

/-- Topic name and group-participant caching of the creation block
(TelegramBridge.js:1160-1189): status and call threads get fixed names,
groups use the fetched subject (fallback `Group Chat` when `groupMetadata`
throws), individual chats use the contact name or `+phone`. -/
def topicNameFor (env : TopicEnv) (st : BridgeState) (chatJid : String) :
    String :=
  if chatJid = "status@broadcast" then "📊 Status Updates"
  else if chatJid = "call@broadcast" then "📞 Call Logs"
  else if jsEndsWith chatJid "@g.us" then
    match env.groupSubject with
    | some subject => subject
    | none => "Group Chat"
  else
    match alGet (phoneOf chatJid) st.contactMappings with
    | some contactName => contactName
    | none => "+" ++ phoneOf chatJid

/-- Result of one `getOrCreateTopic` run: final state, returned topic id
(`none` = the function returned null), whether `createForumTopic` was
invoked, and whether a welcome message was sent. -/
structure GocResult where
  st : BridgeState
  result : Option Nat
  created : Bool
  welcomeSent : Bool
deriving DecidableEq

/-- The creation block of `getOrCreateTopic` (TelegramBridge.js:1153-1205):
bail out on an unconfigured chat id, cache group participants while
resolving the name, create the forum topic (a throwing
`createForumTopic` is caught and yields null), persist the mapping via
`saveChatMapping`, and send the welcome message for non-status/non-call
threads. -/
def createTopicFlow (env : TopicEnv) (st : BridgeState) (chatJid : String)
    (now : Nat) : GocResult :=
  if env.chatIdOk then
    match env.createTopic with
    | none => ⟨st, none, false, false⟩
    | some tid =>
        let isGroup := jsEndsWith chatJid "@g.us"
        let isStatus := chatJid = "status@broadcast"
        let isCall := chatJid = "call@broadcast"
        let st1 :=
          if isGroup ∧ env.groupSubject.isSome then
            { st with groupParticipants :=
                alUpsert chatJid env.groupMembers st.groupParticipants }
          else st
        let st2 := saveChatMapping st1 chatJid tid now env.dbOk
        ⟨st2, some tid, true, ¬isStatus ∧ ¬isCall⟩
  else
    ⟨st, none, false, false⟩

/-- The purge of a stale mapping (TelegramBridge.js:1145-1150):
`chatMappings.delete(chatJid)` and
`collection.deleteOne({type: 'chat', 'data.whatsappJid': chatJid})`. -/
def purgeChatMapping (st : BridgeState) (chatJid : String) : BridgeState :=
  { st with
    chatMappings := alRemove chatJid st.chatMappings
    collection := dbDeleteOne (matchesChat chatJid) st.collection }

/-- Variant-1 `getOrCreateTopic` (TelegramBridge.js:1136-1206). -/
def getOrCreateTopic (env : TopicEnv) (st : BridgeState) (chatJid : String)
    (now : Nat) : GocResult :=
  match alGet chatJid st.chatMappings with
  | some topicId =>
      if env.topicExists topicId then
        ⟨st, some topicId, false, false⟩
      else
        createTopicFlow env (purgeChatMapping st chatJid) chatJid now
  | none => createTopicFlow env st chatJid now

/-! The `telegram/bridge.js` variant (lines 331-397): no probe — an
existing mapping is returned immediately; creation fills both
`chatMappings` and the reverse `topicMappings`, with no durable store. -/

/-- Cached user info of `telegram/bridge.js` (`userMappings` values). -/
structure TgbUser where
  name : Option String
  phone : String
deriving DecidableEq

/-- The in-memory state of the `telegram/bridge.js` bridge. -/
structure TgbState where
  chatMappings : List (String × Nat)
  topicMappings : List (Nat × String)
  userMappings : List (String × TgbUser)
deriving DecidableEq

/-- `telegram/bridge.js` `getOrCreateTopic` (lines 331-397): returns
`(state, topic id, createForumTopic invoked)`. -/
def getOrCreateTopicTGB (env : TopicEnv) (st : TgbState) (chatJid : String) :
    TgbState × Option Nat × Bool :=
  match alGet chatJid st.chatMappings with
  | some topicId => (st, some topicId, false)
  | none =>
      if env.chatIdOk then
        match env.createTopic with
        | none => (st, none, false)
        | some tid =>
            ({ st with
                chatMappings := alUpsert chatJid tid st.chatMappings
                topicMappings := alUpsert tid chatJid st.topicMappings },
              some tid, true)
      else
        (st, none, false)

theorem alGet_eq_none_of_not_mem_keys {κ ν : Type} [DecidableEq κ]
    (k : κ) (l : List (κ × ν)) (h : k ∉ l.map Prod.fst) :
    alGet k l = none := by
  induction l with
  | nil => rfl
  | cons p rest ih =>
    obtain ⟨a, b⟩ := p
    simp only [List.map_cons, List.mem_cons] at h
    push_neg at h
    have hrw : alGet k ((a, b) :: rest) =
        if a = k then some b else alGet k rest := rfl
    rw [hrw, if_neg (fun hh : a = k => h.1 hh.symm)]
    exact ih h.2

theorem alGet_alRemove_self {κ ν : Type} [DecidableEq κ]
    (k : κ) (l : List (κ × ν)) : alGet k (alRemove k l) = none := by
  induction l with
  | nil => rfl
  | cons p rest ih =>
    obtain ⟨a, b⟩ := p
    by_cases ha : a = k
    · simp [alRemove, ha, ih]
    · simp [alRemove, alGet, ha, ih]

/-- Deleting the unique chat record of a jid leaves no chat entry for that
jid in the collection's projection. -/
theorem alGet_filterMap_dbDeleteOne_chat (j : String) (db : List DbRecord)
    (hnd : ((db.filterMap chatEntry).map Prod.fst).Nodup) :
    alGet j ((dbDeleteOne (matchesChat j) db).filterMap chatEntry) = none := by
  induction db with
  | nil => rfl
  | cons r rest ih =>
    by_cases hm : matchesChat j r = true
    · rw [dbDeleteOne, if_pos hm]
      obtain ⟨v', hv'⟩ := (matchesChat_iff j r).mp hm
      rw [List.filterMap_cons_some hv'] at hnd
      simp only [List.map_cons, List.nodup_cons] at hnd
      exact alGet_eq_none_of_not_mem_keys j _ hnd.1
    · rw [dbDeleteOne, if_neg hm]
      cases hr : chatEntry r with
      | none =>
        rw [List.filterMap_cons_none hr] at hnd
        rw [List.filterMap_cons_none hr]
        exact ih hnd
      | some p =>
        obtain ⟨k, v⟩ := p
        have hkj : k ≠ j := fun h => hm ((matchesChat_iff j r).mpr ⟨v, h ▸ hr⟩)
        rw [List.filterMap_cons_some hr] at hnd
        rw [List.filterMap_cons_some hr]
        simp only [List.map_cons, List.nodup_cons] at hnd
        simp only [alGet, if_neg hkj]
        exact ih hnd.2

/-- Shared fact: an existing mapping whose probe succeeds is returned
unchanged, nothing is created. -/
theorem getOrCreateTopic_probe_ok (env : TopicEnv) (st : BridgeState)
    (chatJid : String) (now topicId : Nat)
    (hmap : alGet chatJid st.chatMappings = some topicId)
    (hex : env.topicExists topicId = true) :
    getOrCreateTopic env st chatJid now = ⟨st, some topicId, false, false⟩ := by
  simp [getOrCreateTopic, hmap, hex]

/-- Shared fact: a failed probe purges the mapping and falls through to the
creation flow. -/
theorem getOrCreateTopic_probe_fail (env : TopicEnv) (st : BridgeState)
    (chatJid : String) (now topicId : Nat)
    (hmap : alGet chatJid st.chatMappings = some topicId)
    (hex : env.topicExists topicId = false) :
    getOrCreateTopic env st chatJid now =
      createTopicFlow env (purgeChatMapping st chatJid) chatJid now := by
  simp [getOrCreateTopic, hmap, hex]

/-- Shared fact: when the chat id is configured and `createForumTopic`
succeeds, the creation flow reports a created topic with the fresh id and
persists the mapping (durable write succeeding). -/
theorem createTopicFlow_creates (env : TopicEnv) (st : BridgeState)
    (chatJid : String) (now tid : Nat)
    (hcid : env.chatIdOk = true) (hct : env.createTopic = some tid)
    (hdb : env.dbOk = true) :
    (createTopicFlow env st chatJid now).created = true ∧
    (createTopicFlow env st chatJid now).result = some tid ∧
    alGet chatJid (createTopicFlow env st chatJid now).st.chatMappings =
      some tid := by
  refine ⟨?_, ?_, ?_⟩ <;>
    simp [createTopicFlow, hcid, hct, saveChatMapping, hdb,
      alGet_alUpsert_self]

/-- C1 counterexample: the claim covers the `getOrCreateTopic` of
`src/telegram/bridge.js` (lines 331-397), but that variant returns an
existing mapping immediately: with a mapping `123@s.whatsapp.net → 7` and
an environment in which topic 7 no longer exists (every probe would fail)
and a fresh creation would return 99, the call still returns the stale id
7, leaves the state untouched and creates nothing — no probe, no purge, no
fall-through to creation. -/
theorem c1_counterexample :
    getOrCreateTopicTGB ⟨true, fun _ => false, some 99, none, [], true⟩
        ⟨[("123@s.whatsapp.net", 7)], [(7, "123@s.whatsapp.net")], []⟩
        "123@s.whatsapp.net" =
      (⟨[("123@s.whatsapp.net", 7)], [(7, "123@s.whatsapp.net")], []⟩,
        some 7, false) ∧
    (⟨true, fun _ => false, some 99, none, [], true⟩ :
        TopicEnv).topicExists 7 = false := by
  exact ⟨rfl, rfl⟩

/-- C1 (amended, for the variant-1 `getOrCreateTopic` of
TelegramBridge.js): an existing mapping is probed first; on probe success
the existing topic id is returned with no state change and nothing
created; on probe failure the mapping is removed from the in-memory cache
and from the durable collection and the flow falls through to the creation
flow, which (when the chat id is configured and `createForumTopic`
succeeds) creates a fresh topic and persists the new mapping. -/
theorem c1_probe_and_recreate (env : TopicEnv) (st : BridgeState)
    (chatJid : String) (now topicId : Nat)
    (hmap : alGet chatJid st.chatMappings = some topicId) :
    (env.topicExists topicId = true →
      getOrCreateTopic env st chatJid now =
        ⟨st, some topicId, false, false⟩) ∧
    (env.topicExists topicId = false →
      getOrCreateTopic env st chatJid now =
        createTopicFlow env (purgeChatMapping st chatJid) chatJid now ∧
      alGet chatJid (purgeChatMapping st chatJid).chatMappings = none ∧
      (((st.collection.filterMap chatEntry).map Prod.fst).Nodup →
        alGet chatJid
          ((purgeChatMapping st chatJid).collection.filterMap chatEntry) =
          none) ∧
      (env.chatIdOk = true → env.dbOk = true → ∀ tid',
        env.createTopic = some tid' →
        (getOrCreateTopic env st chatJid now).created = true ∧
        (getOrCreateTopic env st chatJid now).result = some tid' ∧
        alGet chatJid
          (getOrCreateTopic env st chatJid now).st.chatMappings =
          some tid')) := by
  constructor
  · intro hex
    exact getOrCreateTopic_probe_ok env st chatJid now topicId hmap hex
  · intro hex
    have hfall := getOrCreateTopic_probe_fail env st chatJid now topicId
      hmap hex
    refine ⟨hfall, alGet_alRemove_self chatJid st.chatMappings, ?_, ?_⟩
    · intro hnd
      exact alGet_filterMap_dbDeleteOne_chat chatJid st.collection hnd
    · intro hcid hdb tid' hct
      have hc := createTopicFlow_creates env (purgeChatMapping st chatJid)
        chatJid now tid' hcid hct hdb
      rw [hfall]
      exact hc

/-- Witness for `c1_probe_and_recreate`: a concrete mapping probed in an
environment where the topic exists (returned unchanged) and in one where
it does not (purged from cache and collection, fresh topic 99 created). -/
theorem c1_probe_and_recreate_witness :
    (getOrCreateTopic ⟨true, fun _ => true, some 99, none, [], true⟩
        ⟨[("123@s.whatsapp.net", 7)], [], [], [], [], [], [],
          [.chat "123@s.whatsapp.net" 7 0 0]⟩
        "123@s.whatsapp.net" 5 =
      ⟨⟨[("123@s.whatsapp.net", 7)], [], [], [], [], [], [],
          [.chat "123@s.whatsapp.net" 7 0 0]⟩, some 7, false, false⟩) ∧
    ((getOrCreateTopic ⟨true, fun _ => false, some 99, none, [], true⟩
        ⟨[("123@s.whatsapp.net", 7)], [], [], [], [], [], [],
          [.chat "123@s.whatsapp.net" 7 0 0]⟩
        "123@s.whatsapp.net" 5).created = true ∧
      (getOrCreateTopic ⟨true, fun _ => false, some 99, none, [], true⟩
        ⟨[("123@s.whatsapp.net", 7)], [], [], [], [], [], [],
          [.chat "123@s.whatsapp.net" 7 0 0]⟩
        "123@s.whatsapp.net" 5).result = some 99) := by
  refine ⟨?_, ?_, ?_⟩
  · exact (c1_probe_and_recreate
      ⟨true, fun _ => true, some 99, none, [], true⟩
      ⟨[("123@s.whatsapp.net", 7)], [], [], [], [], [], [],
        [.chat "123@s.whatsapp.net" 7 0 0]⟩
      "123@s.whatsapp.net" 5 7 (by decide)).1 rfl
  · exact (((c1_probe_and_recreate
      ⟨true, fun _ => false, some 99, none, [], true⟩
      ⟨[("123@s.whatsapp.net", 7)], [], [], [], [], [], [],
        [.chat "123@s.whatsapp.net" 7 0 0]⟩
      "123@s.whatsapp.net" 5 7 (by decide)).2 rfl).2.2.2 rfl rfl 99 rfl).1
  · exact (((c1_probe_and_recreate
      ⟨true, fun _ => false, some 99, none, [], true⟩
      ⟨[("123@s.whatsapp.net", 7)], [], [], [], [], [], [],
        [.chat "123@s.whatsapp.net" 7 0 0]⟩
      "123@s.whatsapp.net" 5 7 (by decide)).2 rfl).2.2.2 rfl rfl 99 rfl).2.1

/-! ### Concurrency of first-contact creation (claim C2)

`getOrCreateTopic` is invoked directly from the awaited WhatsApp event
handler (`syncMessage`, TelegramBridge.js:803-824); there is no per-key
lock and no queue in front of it, so two handler invocations interleave at
the awaited platform calls.  The machine below is variant-1
`getOrCreateTopic` for two concurrent invocations with the suspension
point made explicit: `ready` is the synchronous mapping check + probe
(lines 1137-1151), after which the call suspends awaiting
`createForumTopic`; `pending tid` resumes once the platform returned the
fresh topic `tid`, counts the creation and commits the mapping
(lines 1191-1196). -/

/-- The control point of one in-flight `getOrCreateTopic` invocation. -/
inductive CallPhase where
  | ready
  | pending (tid : Nat)
  | done (res : Option Nat)
deriving DecidableEq

/-- Shared mapping cache, number of topics created so far, and the two
in-flight calls. -/
structure ConcState where
  chatMappings : List (String × Nat)
  createdCount : Nat
  callA : CallPhase
  callB : CallPhase
deriving DecidableEq

/-- Advance one invocation by one atomic segment. -/
def topicCallStep (probe : Nat → Bool) (jid : String) (tid : Nat)
    (m : List (String × Nat)) (created : Nat) :
    CallPhase → List (String × Nat) × Nat × CallPhase
  | .ready =>
      match alGet jid m with
      | some t =>
          if probe t then (m, created, .done (some t))
          else (alRemove jid m, created, .pending tid)
      | none => (m, created, .pending tid)
  | .pending t => (alUpsert jid t m, created + 1, .done (some t))
  | .done r => (m, created, .done r)

/-- Scheduler step: `false` runs call A (fresh id `tidA`), `true` runs
call B (fresh id `tidB`). -/
def concStep (probe : Nat → Bool) (jid : String) (tidA tidB : Nat)
    (s : ConcState) (who : Bool) : ConcState :=
  if who then
    { s with
      chatMappings :=
        (topicCallStep probe jid tidB s.chatMappings s.createdCount s.callB).1
      createdCount :=
        (topicCallStep probe jid tidB s.chatMappings s.createdCount
          s.callB).2.1
      callB :=
        (topicCallStep probe jid tidB s.chatMappings s.createdCount
          s.callB).2.2 }
  else
    { s with
      chatMappings :=
        (topicCallStep probe jid tidA s.chatMappings s.createdCount s.callA).1
      createdCount :=
        (topicCallStep probe jid tidA s.chatMappings s.createdCount
          s.callA).2.1
      callA :=
        (topicCallStep probe jid tidA s.chatMappings s.createdCount
          s.callA).2.2 }

/-- Run a schedule of interleaved steps. -/
def concRun (probe : Nat → Bool) (jid : String) (tidA tidB : Nat)
    (sched : List Bool) (s : ConcState) : ConcState :=
  sched.foldl (concStep probe jid tidA tidB) s

/-- C2 counterexample: two simultaneous first-contact events for the same
unseen key, interleaved at the awaited `createForumTopic`, each pass the
`chatMappings.has` check before either commits — both create a topic, so
the claimed "exactly one created topic" fails (two topics, 101 and 102,
are created; the mapping keeps only the last writer). -/
theorem c2_counterexample :
    (concRun (fun _ => true) "123@s.whatsapp.net" 101 102
        [false, true, false, true]
        ⟨[], 0, .ready, .ready⟩).createdCount = 2 ∧
    (concRun (fun _ => true) "123@s.whatsapp.net" 101 102
        [false, true, false, true]
        ⟨[], 0, .ready, .ready⟩).callA = .done (some 101) ∧
    (concRun (fun _ => true) "123@s.whatsapp.net" 101 102
        [false, true, false, true]
        ⟨[], 0, .ready, .ready⟩).callB = .done (some 102) := by
  exact ⟨rfl, rfl, rfl⟩

/-- Run `n` complete `getOrCreateTopic` calls one after the other,
returning the final state and the number of calls that created a topic. -/
def seqGetOrCreate (env : TopicEnv) (chatJid : String) (now : Nat) :
    Nat → BridgeState → BridgeState × Nat
  | 0, st => (st, 0)
  | n + 1, st =>
      ((seqGetOrCreate env chatJid now n
          (getOrCreateTopic env st chatJid now).st).1,
        (if (getOrCreateTopic env st chatJid now).created then 1 else 0) +
          (seqGetOrCreate env chatJid now n
            (getOrCreateTopic env st chatJid now).st).2)

/-- Once the mapping exists and its topic verifies, further calls return
it unchanged and create nothing. -/
theorem seqGetOrCreate_existing (env : TopicEnv) (chatJid : String)
    (now tid : Nat) (hex : env.topicExists tid = true) :
    ∀ (m : Nat) (st : BridgeState),
      alGet chatJid st.chatMappings = some tid →
      (seqGetOrCreate env chatJid now m st).1 = st ∧
      (seqGetOrCreate env chatJid now m st).2 = 0 := by
  intro m
  induction m with
  | zero => intro st _; exact ⟨rfl, rfl⟩
  | succ n ih =>
    intro st h
    have hg := getOrCreateTopic_probe_ok env st chatJid now tid h hex
    have ihst := ih st h
    simp only [seqGetOrCreate, hg]
    exact ⟨ihst.1, by simp [ihst.2]⟩

/-- C2 (amended): when the first-contact events for an unseen thread key
are processed to completion one at a time (no interleaving between the
mapping check and the mapping commit), any number `n + 1 ≥ 1` of events
yields exactly one created topic, and the single persisted mapping binds
the key to the fresh topic id. -/
theorem c2_sequential_single_topic (env : TopicEnv) (st : BridgeState)
    (chatJid : String) (now n tid : Nat)
    (hmap : alGet chatJid st.chatMappings = none)
    (hcid : env.chatIdOk = true) (hct : env.createTopic = some tid)
    (hdb : env.dbOk = true) (hex : env.topicExists tid = true) :
    (seqGetOrCreate env chatJid now (n + 1) st).2 = 1 ∧
    alGet chatJid
      (seqGetOrCreate env chatJid now (n + 1) st).1.chatMappings =
      some tid := by
  have hg : getOrCreateTopic env st chatJid now =
      createTopicFlow env st chatJid now := by
    simp [getOrCreateTopic, hmap]
  have hc := createTopicFlow_creates env st chatJid now tid hcid hct hdb
  have haux := seqGetOrCreate_existing env chatJid now tid hex n
    (createTopicFlow env st chatJid now).st hc.2.2
  constructor
  · simp [seqGetOrCreate, hg, hc.1, haux.2]
  · simp only [seqGetOrCreate, hg, haux.1]
    exact hc.2.2

/-- Witness for `c2_sequential_single_topic`: three sequential
first-contact events for the unseen key on a fresh bridge create exactly
one topic (id 42) and one mapping. -/
theorem c2_sequential_single_topic_witness :
    (seqGetOrCreate ⟨true, fun _ => true, some 42, none, [], true⟩
        "123@s.whatsapp.net" 0 3 emptyBridgeState).2 = 1 ∧
    alGet "123@s.whatsapp.net"
      (seqGetOrCreate ⟨true, fun _ => true, some 42, none, [], true⟩
        "123@s.whatsapp.net" 0 3 emptyBridgeState).1.chatMappings =
      some 42 :=
  c2_sequential_single_topic ⟨true, fun _ => true, some 42, none, [], true⟩
    emptyBridgeState "123@s.whatsapp.net" 0 2 42 rfl rfl rfl rfl rfl

/-! ## Telegram-side gate ordering (claim C4)

Variant-1 handlers (`setupTelegramHandlers`, TelegramBridge.js:427-493)
and `TelegramCommands.handleCommand` (TelegramBridge.js:4582-4599).  Each
handler is modelled as a pure function from the gate state and the event
to the list of performed side effects plus the updated rate-limiter map.
The rate limiter map is keyed by `` `${userId}_${action}` ``, modelled as
the pair `(userId, action)`. -/

/-- `msg.chat.type`. -/
inductive ChatType where
  | privateChat
  | groupChat
  | supergroupChat
  | channelChat
deriving DecidableEq

/-- The parts of a Telegram `message` event the gate logic reads. -/
structure TgMessage where
  fromId : Nat
  chatId : Nat
  chatType : ChatType
  isTopicMessage : Bool
  text : Option String
deriving DecidableEq

/-- The observable side effects of the Telegram-side handlers. -/
inductive TgAction where
  | logUnauthorized (userId : Nat)
  | logRateLimited (userId : Nat)
  | sendRateLimitNotice (chatId : Nat)
  | runHandleCommand
  | runHandleTelegramMessage
  | answerUnauthorizedAlert
  | runHandleCallback
  | runHandleReaction
  | sendNotAuthorized (chatId : Nat)
  | runCommandDispatch
deriving DecidableEq

/-- Which side effects produce a reply the requesting user can see: the
rate-limit notice (`sendMessage '⚠️ Rate limit exceeded...'`, line 461),
the callback alert (`answerCallbackQuery '❌ Unauthorized'`, lines
476-479), and the command-gate reply (`sendMessage '❌ You are not
authorized...'`, TelegramBridge.js:4587-4590). -/
def userVisibleReply : TgAction → Bool
  | .sendRateLimitNotice _ => true
  | .answerUnauthorizedAlert => true
  | .sendNotAuthorized _ => true
  | _ => false

/-- `checkRateLimit` acting on the whole `this.rateLimiter` map: the entry
is written back on the allowed paths (reset via `set`, increment via
in-place mutation) and untouched on the reject path. -/
def checkRateLimitMap (cfg : RateConfig)
    (rl : List ((Nat × String) × RateEntry)) (userId : Nat)
    (action : String) (now : Nat) :
    Bool × List ((Nat × String) × RateEntry) :=
  if (checkRateLimit cfg (alGet (userId, action) rl) now).1 then
    (true, alUpsert (userId, action)
      (checkRateLimit cfg (alGet (userId, action) rl) now).2 rl)
  else
    (false, rl)

/-- The variant-1 `message` handler (TelegramBridge.js:449-471):
authorization first (unauthorized: log and return), then
`checkRateLimit(msg.from.id)` with the default `'message'` action
(rejected: log and send the rate-limit notice), then dispatch by chat
type. -/
def onTelegramMessage (cfg : RateConfig) (auth : AuthState)
    (rl : List ((Nat × String) × RateEntry)) (msg : TgMessage)
    (now : Nat) :
    List TgAction × List ((Nat × String) × RateEntry) :=
  if isAuthorized auth msg.fromId then
    if (checkRateLimitMap cfg rl msg.fromId "message" now).1 then
      if msg.chatType = .privateChat then
        ([.runHandleCommand],
          (checkRateLimitMap cfg rl msg.fromId "message" now).2)
      else if msg.chatType = .supergroupChat ∧ msg.isTopicMessage then
        ([.runHandleTelegramMessage],
          (checkRateLimitMap cfg rl msg.fromId "message" now).2)
      else
        ([], (checkRateLimitMap cfg rl msg.fromId "message" now).2)
    else
      ([.logRateLimited msg.fromId, .sendRateLimitNotice msg.chatId],
        (checkRateLimitMap cfg rl msg.fromId "message" now).2)
  else
    ([.logUnauthorized msg.fromId], rl)

/-- The variant-1 `callback_query` handler (TelegramBridge.js:474-484):
an unauthorized user gets `answerCallbackQuery` with the `❌ Unauthorized`
alert; no rate limit is consulted on this path. -/
def onCallbackQuery (auth : AuthState) (fromId : Nat) : List TgAction :=
  if isAuthorized auth fromId then
    [.runHandleCallback]
  else
    [.answerUnauthorizedAlert]

/-- The variant-1 `message_reaction` handler (TelegramBridge.js:487-490):
an unauthorized user is dropped silently (`return`, not even a log). -/
def onMessageReaction (auth : AuthState) (fromId : Nat) : List TgAction :=
  if isAuthorized auth fromId then
    [.runHandleReaction]
  else
    []

/-- `TelegramCommands.handleCommand` (TelegramBridge.js:4582-4599): a
non-command text returns silently; an unauthorized user receives the
`❌ You are not authorized to use this bot.` reply. -/
def handleCommand (auth : AuthState) (msg : TgMessage) : List TgAction :=
  match msg.text with
  | none => []
  | some t =>
      if jsStartsWith t "/" then
        if isAuthorized auth msg.fromId then
          [.runCommandDispatch]
        else
          [.sendNotAuthorized msg.chatId]
      else
        []

/-- C4 counterexample: an unauthorized callback query is not dropped with
only a log — the handler answers it with a user-visible `❌ Unauthorized`
alert (TelegramBridge.js:474-484), contradicting "produces no user-visible
reply". -/
theorem c4_counterexample :
    onCallbackQuery ⟨[], []⟩ 42 = [.answerUnauthorizedAlert] ∧
    userVisibleReply .answerUnauthorizedAlert = true := by
  exact ⟨rfl, rfl⟩

/-- C4 (amended): on the `message` path authorization is evaluated
strictly before rate limiting and an unauthorized message is dropped —
only logged, no user-visible reply, rate-limiter map untouched; an
unauthorized reaction is dropped silently; but an unauthorized callback
query is answered with a visible `Unauthorized` alert and an unauthorized
slash command reaching `TelegramCommands.handleCommand` receives a visible
`not authorized` reply.  No path mutates the rate-limit state of an
unauthorized user. -/
theorem c4_gate_ordering (cfg : RateConfig) (auth : AuthState)
    (rl : List ((Nat × String) × RateEntry)) (msg : TgMessage) (now : Nat)
    (hu : isAuthorized auth msg.fromId = false) :
    (onTelegramMessage cfg auth rl msg now =
        ([.logUnauthorized msg.fromId], rl) ∧
      ∀ a ∈ (onTelegramMessage cfg auth rl msg now).1,
        userVisibleReply a = false) ∧
    onCallbackQuery auth msg.fromId = [.answerUnauthorizedAlert] ∧
    onMessageReaction auth msg.fromId = [] ∧
    (∀ t, msg.text = some t → jsStartsWith t "/" = true →
      handleCommand auth msg = [.sendNotAuthorized msg.chatId]) := by
  refine ⟨⟨?_, ?_⟩, ?_, ?_, ?_⟩
  · simp [onTelegramMessage, hu]
  · intro a ha
    simp [onTelegramMessage, hu] at ha
    subst ha
    rfl
  · simp [onCallbackQuery, hu]
  · simp [onMessageReaction, hu]
  · intro t ht hslash
    simp [handleCommand, ht, hslash, hu]

/-- Witness for `c4_gate_ordering`: user 42 with an empty allow set
sending `/start` in a private chat. -/
theorem c4_gate_ordering_witness :
    (onTelegramMessage ⟨30, 60000⟩ ⟨[], []⟩ []
        ⟨42, 9, .privateChat, false, some "/start"⟩ 0 =
      ([.logUnauthorized 42], []) ∧
      ∀ a ∈ (onTelegramMessage ⟨30, 60000⟩ ⟨[], []⟩ []
          ⟨42, 9, .privateChat, false, some "/start"⟩ 0).1,
        userVisibleReply a = false) ∧
    onCallbackQuery ⟨[], []⟩ 42 = [.answerUnauthorizedAlert] ∧
    onMessageReaction ⟨[], []⟩ 42 = [] ∧
    handleCommand ⟨[], []⟩ ⟨42, 9, .privateChat, false, some "/start"⟩ =
      [.sendNotAuthorized 9] := by
  have h := c4_gate_ordering ⟨30, 60000⟩ ⟨[], []⟩ []
    ⟨42, 9, .privateChat, false, some "/start"⟩ 0 (by decide)
  exact ⟨h.1, h.2.1, h.2.2.1, h.2.2.2 "/start" rfl (by decide)⟩

/-! ## Ordered Processing Queue (§4.4, claim C9)

`src/telegram/bridge.js`: both producers push closures onto
`this.messageQueue` (the Telegram `message` handler at line 180 and
`syncMessage` at lines 228-235) and `startMessageQueueProcessor`
(lines 59-74) runs a `setInterval` consumer that, unless
`isProcessingQueue` is set or the queue is empty, sets the flag, `shift()`s
the head, awaits it and clears the flag.  JavaScript runs each of these
code segments atomically; the await inside the consumer is the only
suspension, so the machine below has three atomic steps: enqueue, the
interval body up to the await (`tickStart`), and the completion of the
awaited task (`taskFinish`).  A tick that finds the flag set or the queue
empty is a no-op and is omitted.  Tasks carry ids in enqueue order;
`enqueued` records the producer history, `runningTasks` the tasks whose
closures have been started and not yet finished, `completed` the finished
ones. -/

/-- The queue-processor state of a `telegram/bridge.js` instance. -/
structure QueueState where
  enqueued : List Nat
  queue : List Nat
  runningTasks : List Nat
  isProcessingQueue : Bool
  completed : List Nat
deriving DecidableEq

/-- Constructor state (lines 21-22): empty queue, flag clear. -/
def initQueueState : QueueState := ⟨[], [], [], false, []⟩

/-- One atomic event-loop segment of the queue system. -/
inductive QueueStep : QueueState → QueueState → Prop where
  | enqueue (t : Nat) (s : QueueState) :
      QueueStep s
        { s with enqueued := s.enqueued ++ [t], queue := s.queue ++ [t] }
  | tickStart (s : QueueState) (t : Nat) (rest : List Nat) :
      s.isProcessingQueue = false → s.queue = t :: rest →
      QueueStep s
        { s with isProcessingQueue := true, queue := rest,
                 runningTasks := s.runningTasks ++ [t] }
  | taskFinish (s : QueueState) (t : Nat) (rest : List Nat) :
      s.runningTasks = t :: rest →
      QueueStep s
        { s with runningTasks := rest,
                 completed := s.completed ++ [t],
                 isProcessingQueue := false }

/-- States the queue system can reach from startup. -/
def QueueReachable (s : QueueState) : Prop :=
  Relation.ReflTransGen QueueStep initQueueState s

/-- The inductive invariant: the flag tracks the in-flight task, at most
one task is in flight, and the producer history is exactly completed ++
in-flight ++ pending. -/
def QueueInv (s : QueueState) : Prop :=
  (s.isProcessingQueue = false → s.runningTasks = []) ∧
  s.runningTasks.length ≤ 1 ∧
  s.enqueued = s.completed ++ s.runningTasks ++ s.queue

theorem queueInv_init : QueueInv initQueueState := by
  refine ⟨fun _ => rfl, by simp [initQueueState], rfl⟩

theorem queueInv_step (s s' : QueueState) (h : QueueStep s s')
    (hinv : QueueInv s) : QueueInv s' := by
  obtain ⟨hflag, hlen, hsplit⟩ := hinv
  cases h with
  | enqueue t s =>
    refine ⟨hflag, hlen, ?_⟩
    simp only [hsplit, List.append_assoc]
  | tickStart s t rest hf hq =>
    have hrun : s.runningTasks = [] := hflag hf
    refine ⟨fun h => by simp at h, by simp [hrun], ?_⟩
    simp only [hsplit, hq, hrun, List.nil_append, List.append_assoc,
      List.singleton_append, List.cons_append]
  | taskFinish s t rest hr =>
    have hrest : rest = [] := by
      have := hlen
      rw [hr] at this
      simp at this
      simp [this]
    subst hrest
    refine ⟨fun _ => rfl, by simp, ?_⟩
    simp only [hsplit, hr, List.append_assoc, List.singleton_append,
      List.nil_append]

theorem queueInv_reachable (s : QueueState) (h : QueueReachable s) :
    QueueInv s := by
  induction h with
  | refl => exact queueInv_init
  | tail _ hstep ih => exact queueInv_step _ _ hstep ih

/-- C9: in every reachable state of the `telegram/bridge.js` queue system
at most one task is executing (never two concurrently), and the tasks are
processed in exact enqueue order: the enqueue history decomposes as the
completed tasks, then the at-most-one in-flight task, then the pending
queue — so completions are a prefix of the enqueue order and the pending
tasks follow it. -/
theorem c9_queue_single_consumer_fifo (s : QueueState)
    (h : QueueReachable s) :
    s.runningTasks.length ≤ 1 ∧
    s.enqueued = s.completed ++ s.runningTasks ++ s.queue := by
  have hinv := queueInv_reachable s h
  exact ⟨hinv.2.1, hinv.2.2⟩

/-- Witness for `c9_queue_single_consumer_fifo`: the state after
enqueueing tasks 1 and 2, starting task 1 and finishing it — reachable in
four steps — satisfies the conclusion. -/
theorem c9_queue_single_consumer_fifo_witness :
    (QueueState.mk [1, 2] [2] [] false [1]).runningTasks.length ≤ 1 ∧
    (QueueState.mk [1, 2] [2] [] false [1]).enqueued =
      (QueueState.mk [1, 2] [2] [] false [1]).completed ++
        (QueueState.mk [1, 2] [2] [] false [1]).runningTasks ++
        (QueueState.mk [1, 2] [2] [] false [1]).queue := by
  refine c9_queue_single_consumer_fifo _ ?_
  have s1 : QueueStep initQueueState ⟨[1], [1], [], false, []⟩ := by
    have := QueueStep.enqueue 1 initQueueState
    simpa [initQueueState] using this
  have s2 : QueueStep ⟨[1], [1], [], false, []⟩
      ⟨[1, 2], [1, 2], [], false, []⟩ := by
    have := QueueStep.enqueue 2 (⟨[1], [1], [], false, []⟩ : QueueState)
    simpa using this
  have s3 : QueueStep ⟨[1, 2], [1, 2], [], false, []⟩
      ⟨[1, 2], [2], [1], true, []⟩ := by
    have := QueueStep.tickStart (⟨[1, 2], [1, 2], [], false, []⟩ : QueueState)
      1 [2] rfl rfl
    simpa using this
  have s4 : QueueStep ⟨[1, 2], [2], [1], true, []⟩
      ⟨[1, 2], [2], [], false, [1]⟩ := by
    have := QueueStep.taskFinish (⟨[1, 2], [2], [1], true, []⟩ : QueueState)
      1 [] rfl
    simpa using this
  exact Relation.ReflTransGen.tail
    (Relation.ReflTransGen.tail
      (Relation.ReflTransGen.tail
        (Relation.ReflTransGen.tail Relation.ReflTransGen.refl s1) s2) s3) s4

/-! ## Contact-name validation (claim C10)

`isValidContactName` (TelegramBridge.js:361-367) and its three callers:
the `syncContacts` loop (TelegramBridge.js:308-358), the
`contacts.update` handler and the `contacts.upsert` handler
(TelegramBridge.js:2188-2245).  Each caller is modelled as the
`saveContactMapping(phone, name)` argument it emits for one contact, if
any.  JS string truthiness (`name && ...`) is the non-empty check;
`/^\d+$/.test(name)` holds iff the name is non-empty and all digits. -/

/-- One WhatsApp store/event contact record, with the fields these
handlers read. -/
structure WAContact where
  id : Option String
  name : Option String
  notify : Option String
  verifiedName : Option String
deriving DecidableEq

/-- `isValidContactName(name, phone)` (TelegramBridge.js:361-367). -/
def isValidContactName (name phone : String) : Bool :=
  (name != "") && (name != phone) && (!jsStartsWith name "+") &&
    decide (name.length > 2) &&
    !((name != "") && name.data.all (fun c => c.isDigit))

/-- `field && isValidContactName(field, phone)` for an optional field. -/
def validName (phone : String) : Option String → Bool
  | some n => (n != "") && isValidContactName n phone
  | none => false

/-- The name-extraction chain of `syncContacts`
(TelegramBridge.js:327-335): `contact.name`, else `contact.notify`, else
`contact.verifiedName`, each guarded by truthiness and
`isValidContactName`. -/
def pickContactName (c : WAContact) (phone : String) : Option String :=
  if validName phone c.name then c.name
  else if validName phone c.notify then c.notify
  else if validName phone c.verifiedName then c.verifiedName
  else none

/-- One iteration of the `syncContacts` loop (TelegramBridge.js:323-347):
skip empty and `status@broadcast` jids, pick the best valid name, and emit
`saveContactMapping(phone, contactName)` when it differs from the cached
name.  Returns the `(phone, name)` argument of the emitted save, if any. -/
def syncContactSave (contactMappings : List (String × String))
    (jid : String) (c : WAContact) : Option (String × String) :=
  if jid = "" ∨ jid = "status@broadcast" then none
  else
    match pickContactName c (phoneOf jid) with
    | some n =>
        if alGet (phoneOf jid) contactMappings ≠ some n then
          some (phoneOf jid, n)
        else none
    | none => none

/-- The `contacts.update` handler body for one contact
(TelegramBridge.js:2190-2202): requires truthy `id` and `name`, a valid
name, and a change against the cached name. -/
def contactsUpdateSave (contactMappings : List (String × String))
    (c : WAContact) : Option (String × String) :=
  match c.id, c.name with
  | some id, some n =>
      if id != "" && (n != "") then
        if isValidContactName n (phoneOf id) = true ∧
            alGet (phoneOf id) contactMappings ≠ some n then
          some (phoneOf id, n)
        else none
      else none
  | _, _ => none

/-- The `contacts.upsert` handler body for one contact
(TelegramBridge.js:2226-2236): requires truthy `id` and `name`, a valid
name, and no existing cached name for the phone. -/
def contactsUpsertSave (contactMappings : List (String × String))
    (c : WAContact) : Option (String × String) :=
  match c.id, c.name with
  | some id, some n =>
      if id != "" && (n != "") then
        if isValidContactName n (phoneOf id) = true ∧
            alGet (phoneOf id) contactMappings = none then
          some (phoneOf id, n)
        else none
      else none
  | _, _ => none

/-- Unpacking `isValidContactName` into the spec's five properties. -/
theorem isValidContactName_iff (n p : String) :
    isValidContactName n p = true ↔
      (n ≠ "" ∧ n ≠ p ∧ jsStartsWith n "+" = false ∧ 2 < n.length ∧
        ¬∀ ch ∈ n.data, ch.isDigit = true) := by
  constructor
  · intro h
    simp only [isValidContactName, Bool.and_eq_true, bne_iff_ne,
      Bool.not_eq_true', decide_eq_true_eq] at h
    obtain ⟨⟨⟨⟨h1, h2⟩, h3⟩, h4⟩, h5⟩ := h
    refine ⟨h1, h2, h3, h4, ?_⟩
    intro hall
    rw [Bool.and_eq_false_iff] at h5
    cases h5 with
    | inl h0 => exact h1 (by simpa using h0)
    | inr h0 =>
      rw [List.all_eq_false] at h0
      obtain ⟨x, hx, hdx⟩ := h0
      exact hdx (hall x hx)
  · rintro ⟨h1, h2, h3, h4, h5⟩
    simp only [isValidContactName, Bool.and_eq_true, bne_iff_ne,
      Bool.not_eq_true', decide_eq_true_eq]
    refine ⟨⟨⟨⟨h1, h2⟩, h3⟩, h4⟩, ?_⟩
    rw [Bool.and_eq_false_iff]
    right
    rw [List.all_eq_false]
    push_neg at h5
    obtain ⟨ch, hch, hd⟩ := h5
    exact ⟨ch, hch, hd⟩

/-- A name delivered by the extraction chain passed the validator. -/
theorem pickContactName_valid (c : WAContact) (phone n : String)
    (h : pickContactName c phone = some n) :
    isValidContactName n phone = true := by
  unfold pickContactName at h
  split_ifs at h with h1 h2 h3
  · rw [h] at h1
    simp only [validName, Bool.and_eq_true] at h1
    exact h1.2
  · rw [h] at h2
    simp only [validName, Bool.and_eq_true] at h2
    exact h2.2
  · rw [h] at h3
    simp only [validName, Bool.and_eq_true] at h3
    exact h3.2

/-- C10 (confirmed): every display name stored into the contact mapping by
the contact-sync loop or by the `contacts.update` / `contacts.upsert`
event handlers is a validated name — non-empty, different from the bare
phone number, not starting with `+`, longer than two characters, and not
composed solely of digits. -/
theorem c10_contact_names_validated
    (contactMappings : List (String × String)) (jid : String)
    (c : WAContact) (p n : String) :
    (syncContactSave contactMappings jid c = some (p, n) →
      n ≠ "" ∧ n ≠ p ∧ jsStartsWith n "+" = false ∧ 2 < n.length ∧
        ¬∀ ch ∈ n.data, ch.isDigit = true) ∧
    (contactsUpdateSave contactMappings c = some (p, n) →
      n ≠ "" ∧ n ≠ p ∧ jsStartsWith n "+" = false ∧ 2 < n.length ∧
        ¬∀ ch ∈ n.data, ch.isDigit = true) ∧
    (contactsUpsertSave contactMappings c = some (p, n) →
      n ≠ "" ∧ n ≠ p ∧ jsStartsWith n "+" = false ∧ 2 < n.length ∧
        ¬∀ ch ∈ n.data, ch.isDigit = true) := by
  refine ⟨?_, ?_, ?_⟩
  · intro h
    unfold syncContactSave at h
    by_cases hskip : jid = "" ∨ jid = "status@broadcast"
    · rw [if_pos hskip] at h
      exact absurd h (by simp)
    · rw [if_neg hskip] at h
      cases hpick : pickContactName c (phoneOf jid) with
      | none =>
        rw [hpick] at h
        exact absurd h (by simp)
      | some n' =>
        simp only [hpick] at h
        by_cases hch : alGet (phoneOf jid) contactMappings ≠ some n'
        · rw [if_pos hch] at h
          simp only [Option.some.injEq, Prod.mk.injEq] at h
          obtain ⟨hp, hn⟩ := h
          have hv := (isValidContactName_iff n' (phoneOf jid)).mp
            (pickContactName_valid c (phoneOf jid) n' hpick)
          subst hp
          subst hn
          exact hv
        · rw [if_neg hch] at h
          exact absurd h (by simp)
  · intro h
    unfold contactsUpdateSave at h
    cases hid : c.id with
    | none =>
      rw [hid] at h
      exact absurd h (by simp)
    | some id =>
      cases hnm : c.name with
      | none =>
        simp only [hid, hnm] at h
        exact absurd h (by simp)
      | some n' =>
        simp only [hid, hnm] at h
        by_cases htr : (id != "" && (n' != "")) = true
        · rw [if_pos htr] at h
          by_cases hcond : isValidContactName n' (phoneOf id) = true ∧
              alGet (phoneOf id) contactMappings ≠ some n'
          · rw [if_pos hcond] at h
            simp only [Option.some.injEq, Prod.mk.injEq] at h
            obtain ⟨hp, hn⟩ := h
            have hv := (isValidContactName_iff n' (phoneOf id)).mp hcond.1
            subst hp
            subst hn
            exact hv
          · rw [if_neg hcond] at h
            exact absurd h (by simp)
        · rw [if_neg htr] at h
          exact absurd h (by simp)
  · intro h
    unfold contactsUpsertSave at h
    cases hid : c.id with
    | none =>
      rw [hid] at h
      exact absurd h (by simp)
    | some id =>
      cases hnm : c.name with
      | none =>
        simp only [hid, hnm] at h
        exact absurd h (by simp)
      | some n' =>
        simp only [hid, hnm] at h
        by_cases htr : (id != "" && (n' != "")) = true
        · rw [if_pos htr] at h
          by_cases hcond : isValidContactName n' (phoneOf id) = true ∧
              alGet (phoneOf id) contactMappings = none
          · rw [if_pos hcond] at h
            simp only [Option.some.injEq, Prod.mk.injEq] at h
            obtain ⟨hp, hn⟩ := h
            have hv := (isValidContactName_iff n' (phoneOf id)).mp hcond.1
            subst hp
            subst hn
            exact hv
          · rw [if_neg hcond] at h
            exact absurd h (by simp)
        · rw [if_neg htr] at h
          exact absurd h (by simp)

/-- Witness for `c10_contact_names_validated`: syncing the contact
`123@s.whatsapp.net` named `Alice` on an empty mapping emits the save
`("123", "Alice")`, whose name satisfies every property. -/
theorem c10_contact_names_validated_witness :
    syncContactSave [] "123@s.whatsapp.net"
        ⟨some "123@s.whatsapp.net", some "Alice", none, none⟩ =
      some ("123", "Alice") ∧
    ("Alice" ≠ "" ∧ "Alice" ≠ "123" ∧
      jsStartsWith "Alice" "+" = false ∧ 2 < "Alice".length ∧
      ¬∀ ch ∈ "Alice".data, ch.isDigit = true) := by
  refine ⟨by decide, ?_⟩
  exact (c10_contact_names_validated [] "123@s.whatsapp.net"
    ⟨some "123@s.whatsapp.net", some "Alice", none, none⟩
    "123" "Alice").1 (by decide)
